import Mathlib

/-!
Verification of the bedrocktool capture/replay core.

The definitions below are a shallow embedding of the Go source:
* `dumpPacket` embeds `subcommands.dumpPacket` (src/subcommands/capture.go),
  the capture frame encoder.  Byte output is modelled as `List Nat` (each
  element a byte value); the underlying `io.WriteCloser` is modelled by
  `ByteStream`, whose `plan` field records, per `Write` call, how many bytes
  the stream accepts (`none` = all of them), mirroring Go's short-write
  semantics where a `Write` may consume only a prefix.
* `readPacket` embeds `replayConnector.readPacket` (proxy package), the
  replay frame reader, including its ignored `binary.Read` errors (an ignored
  failed read leaves the target at its zero value and consumes the remaining
  bytes, exactly as `io.ReadFull` does inside `binary.Read`).
* `decodeFrames` embeds the reading part of `replayConnector.loop`: frames
  are read until a read error or end of stream.  The loop is given
  `bs.length` as fuel; each successful frame consumes at least 21 bytes of
  the stream, so this fuel is never the terminating reason.
-/

/-- Little-endian byte encoding of a `uint32` value, as produced by Go's
`binary.Write(f, binary.LittleEndian, x)` for a `uint32` (values are reduced
modulo 2^32 byte by byte). -/
def le32enc (n : Nat) : List Nat :=
  [n % 256, n / 256 % 256, n / 256 ^ 2 % 256, n / 256 ^ 3 % 256]

/-- Little-endian byte encoding of an `int64` value (two's complement),
as produced by `binary.Write` for the unix-milliseconds timestamp. -/
def le64enc (t : Int) : List Nat :=
  let m := (t % (2 ^ 64 : Int)).toNat
  [m % 256, m / 256 % 256, m / 256 ^ 2 % 256, m / 256 ^ 3 % 256,
   m / 256 ^ 4 % 256, m / 256 ^ 5 % 256, m / 256 ^ 6 % 256, m / 256 ^ 7 % 256]

/-- Little-endian decoding of four bytes into a `uint32` value, as performed
by `binary.Read` into a `uint32`. -/
def le32dec : List Nat → Nat
  | [a, b, c, d] => a + 256 * b + 256 ^ 2 * c + 256 ^ 3 * d
  | _ => 0

/-- `io.ReadFull` semantics on a byte list: read exactly `k` bytes, or fail
if fewer are available. -/
def readExact (k : Nat) (bs : List Nat) : Option (List Nat × List Nat) :=
  if k ≤ bs.length then some (bs.take k, bs.drop k) else none

/-- The capture output stream: `buf` is everything written so far, `plan`
says for each upcoming `Write` call how many bytes the stream will accept
(`none`, or an exhausted plan, means the write is accepted in full). -/
structure ByteStream where
  buf : List Nat
  plan : List (Option Nat)
deriving DecidableEq

/-- One `Write` call on the stream: appends the accepted prefix of `w` and
returns the count of bytes accepted, like Go's `io.Writer.Write`. -/
def streamWrite (s : ByteStream) (w : List Nat) : Nat × ByteStream :=
  match s.plan with
  | [] => (w.length, { buf := s.buf ++ w, plan := [] })
  | p :: rest =>
    let k := match p with
      | none => w.length
      | some k => min k w.length
    (k, { buf := s.buf ++ w.take k, plan := rest })

/-- Embedding of `dumpPacket` (src/subcommands/capture.go):
writes the leading magic `0xAAAAAAAA`, the payload length as `uint32`
(`packetSize := uint32(len(payload))`, i.e. the length modulo 2^32), the
direction flag as one byte, the timestamp as little-endian `int64`, the
payload (whose `Write` may be short; the error is only logged), zero padding
up to `packetSize` when the payload write was short, and the trailing magic
`0xBBBBBBBB`.  The surrounding `dumpLock` mutex makes one call to this
function atomic with respect to concurrent producers. -/
def dumpPacket (f : ByteStream) (toServer : Bool) (now : Int)
    (payload : List Nat) : ByteStream :=
  let f := (streamWrite f [0xAA, 0xAA, 0xAA, 0xAA]).2
  let packetSize := payload.length % 2 ^ 32
  let f := (streamWrite f (le32enc packetSize)).2
  let f := (streamWrite f [if toServer then 1 else 0]).2
  let f := (streamWrite f (le64enc now)).2
  let r := streamWrite f payload
  let f := if r.1 < packetSize
    then (streamWrite r.2 (List.replicate (packetSize - r.1) 0)).2
    else r.2
  (streamWrite f [0xBB, 0xBB, 0xBB, 0xBB]).2

/-- Embedding of `replayConnector.readPacket` for a container of format
version `ver`.  Result: `.ok none` is a clean end of stream (`io.EOF` on the
very first read), `.ok (some ((toServer, payload), rest))` is one decoded
frame plus the remaining bytes, `.error` is any structural read error (which
makes `loop` stop).  The length, direction and timestamp reads ignore their
errors exactly as the source does: on a short read the bytes available are
consumed and the target keeps its zero value. -/
def readPacket (ver : Nat) (bs : List Nat) :
    Except String (Option ((Bool × List Nat) × List Nat)) :=
  if bs = [] then Except.ok none
  else
    match readExact 4 bs with
    | none => Except.error "unexpected EOF"
    | some (m, bs1) =>
      if le32dec m ≠ 0xAAAAAAAA then Except.error "wrong Magic"
      else
        let r2 := readExact 4 bs1
        let packetLength := match r2 with
          | none => 0
          | some (l, _) => le32dec l
        let bs2 := match r2 with
          | none => ([] : List Nat)
          | some (_, t) => t
        let r3 := readExact 1 bs2
        let toServer := match r3 with
          | none => false
          | some (d, _) => d.headD 0 != 0
        let bs3 := match r3 with
          | none => ([] : List Nat)
          | some (_, t) => t
        let bs4 := if ver ≥ 2 then
            match readExact 8 bs3 with
            | none => ([] : List Nat)
            | some (_, t) => t
          else bs3
        match readExact packetLength bs4 with
        | none => Except.error "unexpected EOF"
        | some (payload, bs5) =>
          let r6 := readExact 4 bs5
          let magic2 := match r6 with
            | none => 0
            | some (m2, _) => le32dec m2
          let bs6 := match r6 with
            | none => ([] : List Nat)
            | some (_, t) => t
          if magic2 ≠ 0xBBBBBBBB then Except.error "wrong Magic2"
          else Except.ok (some ((toServer, payload), bs6))

/-- The frame-reading part of `replayConnector.loop`, with explicit fuel:
keep reading frames until a clean end of stream or a read error. -/
def decodeLoop (ver : Nat) : Nat → List Nat → List (Bool × List Nat)
  | 0, _ => []
  | fuel + 1, bs =>
    match readPacket ver bs with
    | Except.ok (some ((d, p), rest)) => (d, p) :: decodeLoop ver fuel rest
    | _ => []

/-- All frames the replay loop reads from a byte stream.  `bs.length` is
enough fuel: every successfully read frame consumes at least 21 bytes. -/
def decodeFrames (ver : Nat) (bs : List Nat) : List (Bool × List Nat) :=
  decodeLoop ver bs.length bs

/-- One captured frame: direction, capture timestamp (unix milliseconds) and
payload bytes — the arguments `dumpPacket` is called with. -/
structure Frame where
  toServer : Bool
  timestamp : Int
  payload : List Nat
deriving DecidableEq

/-- Writing a sequence of frames through the capture encoder into one
stream, one `dumpPacket` call per frame (the `dumpLock` mutex serializes
the calls, so any interleaved execution is one such sequence). -/
def captureAll (s : ByteStream) (frames : List Frame) : ByteStream :=
  frames.foldl (fun s f => dumpPacket s f.toServer f.timestamp f.payload) s

/-- The flat byte layout of a single frame as emitted on a fault-free
stream. -/
def frameBytes (toServer : Bool) (now : Int) (payload : List Nat) : List Nat :=
  [0xAA, 0xAA, 0xAA, 0xAA] ++ le32enc payload.length ++
    (if toServer then [1] else [0]) ++ le64enc now ++ payload ++
    [0xBB, 0xBB, 0xBB, 0xBB]

/-- Concatenated layout of a frame sequence. -/
def encBytes : List Frame → List Nat
  | [] => []
  | f :: fs => frameBytes f.toServer f.timestamp f.payload ++ encBytes fs

/-- A payload of exactly 2^32 bytes: `uint32(len(payload))` wraps to 0 for
it, so the length field of its frame declares 0 bytes. -/
def bigPayload : List Nat := List.replicate 4294967296 0

/-- All of `bigPayload` except its first four bytes. -/
def bigRest : List Nat := List.replicate 4294967292 0

/-- A frame carrying `bigPayload`. -/
def bigFrame : Frame := { toServer := true, timestamp := 0, payload := bigPayload }

/-- The decoded packets the replay login sequence distinguishes: a
start-of-game message carrying its entity runtime id, an
initialization-confirmation message carrying its entity runtime id, and
every other packet (`handleLoginSequence`'s remaining cases, which do not
touch the spawn logic; resource-pack packets are routed to their handler
and also return `gameStarted = false`). -/
inductive Pk where
  | startGame (entityRuntimeID : Nat)
  | setLocalPlayerAsInitialised (entityRuntimeID : Nat)
  | other
deriving DecidableEq

/-- Whether a packet is the start-of-game message. -/
def Pk.isStartGame : Pk → Bool
  | Pk.startGame _ => true
  | _ => false

/-- The replay connector state `handleLoginSequence` reads and writes:
the entity runtime id stored in the game-data snapshot (Go zero value 0
until a start-of-game message sets it), whether `close(r.spawn)` has run
(the one-shot spawn signal), and how many times it has run. -/
structure LoginState where
  entityRuntimeID : Nat
  spawnFired : Bool
  fireCount : Nat
deriving DecidableEq

/-- The state of a freshly created replay connector: zero-valued game data,
spawn channel open, never fired. -/
def initialLoginState : LoginState := ⟨0, false, 0⟩

/-- Embedding of `replayConnector.handleLoginSequence`: a start-of-game
message overwrites the game-data snapshot (in particular its entity runtime
id); an initialization-confirmation message whose id differs from the
snapshot's id fails with the mismatch error, otherwise the spawn channel is
closed and `true` (login finished) is returned; other packets change
nothing here. -/
def handleLoginSequence (pk : Pk) (s : LoginState) :
    Except String (LoginState × Bool) :=
  match pk with
  | Pk.startGame rid => Except.ok ({ s with entityRuntimeID := rid }, false)
  | Pk.setLocalPlayerAsInitialised rid =>
    if rid ≠ s.entityRuntimeID then
      Except.error "entity runtime ID mismatch: entity runtime ID in StartGame and SetLocalPlayerAsInitialised packets should be equal"
    else
      Except.ok ({ s with spawnFired := true, fireCount := s.fireCount + 1 }, true)
  | Pk.other => Except.ok (s, false)

/-- The login phase of `replayConnector.loop`: decoded packets are fed to
`handleLoginSequence` until it reports the game started or fails; on
failure the loop logs the error and returns (the deferred `Close` then
closes the session), leaving the state as it was before the failing
packet. -/
def processLogin : List Pk → LoginState → LoginState × Option String
  | [], s => (s, none)
  | pk :: rest, s =>
    match handleLoginSequence pk s with
    | Except.error e => (s, some e)
    | Except.ok (s2, true) => (s2, none)
    | Except.ok (s2, false) => processLogin rest s2

/-- Outcome of `DoSpawnContext`'s select given the session state: if the
spawn channel is closed the wait can succeed; otherwise, if the close
channel is closed it returns the "do spawn" error; otherwise it blocks
(`none`).  Once the loop has terminated, `closed` is true (the loop's
deferred `Close`). -/
def doSpawnResult (spawnFired closed : Bool) : Option (Except String Unit) :=
  if spawnFired then some (Except.ok ())
  else if closed then some (Except.error "do spawn")
  else none

/-- A capture container file as seen by `createReplayConnector` after the
archive has been parsed: `magic` is the file's first four bytes as stored
on disk (`WriteReplayHeader` writes "BTCP" there; a bare zip archive starts
with other bytes), and `entries` are the archive's named entries.
`createReplayConnector` never reads `magic`. -/
structure Container where
  magic : List Nat
  entries : List (String × List Nat)
deriving DecidableEq

/-- Archive entry lookup, `z.Open(name)`. -/
def findEntry (c : Container) (name : String) : Option (List Nat) :=
  (c.entries.find? (fun e => e.1 == name)).map (fun e => e.2)

/-- The format version read from the "version" entry: `binary.Read` into a
`uint32` whose error is ignored, so a short entry leaves the zero value. -/
def declaredVersion (vb : List Nat) : Nat :=
  match readExact 4 vb with
  | none => 0
  | some (v, _) => le32dec v

/-- Modelled from the spec: `replayCache.ReadFrom` (the replay
resource-pack cache, not under src/) "loads the pack directory into a fresh
Resource-Pack Cache", registering the archive's pack entries; the spec
gives it no failure mode relevant to the open-time version/magic gates. -/
def cacheReadFrom (entries : List (String × List Nat)) :
    List (String × List Nat) :=
  entries.filter (fun e => !(e.1 == "version") && !(e.1 == "packets.bin"))

/-- What `createReplayConnector` holds after a successful open: the
verified format version, the loaded pack directory, and the opened frame
log ("packets.bin"). -/
structure ReplayHandle where
  ver : Nat
  packs : List (String × List Nat)
  packetBytes : List Nat
deriving DecidableEq

/-- `replayMagic = []byte("BTCP")` — written by `WriteReplayHeader`, never
read back by `createReplayConnector`. -/
def replayMagic : List Nat := [66, 84, 67, 80]

/-- Embedding of `WriteReplayHeader`: the magic followed by the current
replay version (3) as a little-endian `int32`. -/
def writeReplayHeader : List Nat := replayMagic ++ le32enc 3

/-- Embedding of the open sequence of `createReplayConnector` (after the
external zip parse): open the "version" entry (a missing entry is a zip
open error), read the version and reject anything other than 3 with
"wrong version", load the pack directory, then open "packets.bin".  The
container's leading magic bytes are never examined. -/
def openReplay (c : Container) : Except String ReplayHandle :=
  match findEntry c "version" with
  | none => Except.error "open version: file does not exist"
  | some vb =>
    if declaredVersion vb ≠ 3 then Except.error "wrong version"
    else
      match findEntry c "packets.bin" with
      | none => Except.error "open packets.bin: file does not exist"
      | some pb =>
        Except.ok { ver := declaredVersion vb,
                    packs := cacheReadFrom c.entries, packetBytes := pb }

/-- The replay connector's channel state: `onceDone` is the `sync.Once`
guard inside `Close`; `closeClosed` and `packetsClosed` record whether the
`close` and `packets` channels have been closed (both happen together,
inside the Once body). -/
structure ConnChannels where
  onceDone : Bool
  closeClosed : Bool
  packetsClosed : Bool
deriving DecidableEq

/-- Embedding of `replayConnector.Close`: the `sync.Once` body closes both
channels; later calls do nothing.  `Close` always returns a nil error
(modelled as `none`). -/
def closeConn (c : ConnChannels) : ConnChannels × Option String :=
  if c.onceDone then (c, none)
  else ({ onceDone := true, closeClosed := true, packetsClosed := true }, none)

/-- Embedding of `replayConnector.ReadPacket`'s select when no sender is
pending: a closed `close` channel returns `net.ErrClosed`; a receive from
the closed `packets` channel yields `ok = false`, again `net.ErrClosed`;
with both channels open the read blocks (`none`).  After `Close`, both
branches of the select produce the same error, so the outcome is
deterministic. -/
def readPacketOutcome (c : ConnChannels) : Option (Except String Unit) :=
  if c.closeClosed || c.packetsClosed then
    some (Except.error "use of closed network connection")
  else none

/-- The channel state of a freshly created replay connector
(`createReplayConnector`): both channels open, `Close` never run. -/
def newConnChannels : ConnChannels := ⟨false, false, false⟩

/-- `Sched ps order` says the frame sequence `order` is an interleaving of
the per-producer frame sequences `ps`: at each step some producer whose
sequence is non-empty contributes its next frame.  Because `dumpLock`
serializes `dumpPacket` calls, any concurrent execution of N producers
writes exactly such an interleaving to the stream, and every interleaving
preserves each producer's program order by construction. -/
inductive Sched : List (List Frame) → List Frame → Prop
  | nil (ps : List (List Frame)) (h : ∀ p ∈ ps, p = []) : Sched ps []
  | step (ps : List (List Frame)) (i : Nat) (f : Frame) (rest : List Frame)
      (order : List Frame) (hget : ps[i]? = some (f :: rest))
      (htail : Sched (ps.set i rest) order) : Sched ps (f :: order)

theorem le32enc_mod32 (n : Nat) : le32enc (n % 4294967296) = le32enc n := by
  simp only [le32enc, List.cons.injEq, and_true]
  refine ⟨?_, ?_, ?_, ?_⟩ <;> omega

theorem le32enc_length (n : Nat) : (le32enc n).length = 4 := rfl

theorem le64enc_length (t : Int) : (le64enc t).length = 8 := rfl

theorem readExact_append {k : Nat} (xs ys : List Nat) (h : xs.length = k) :
    readExact k (xs ++ ys) = some (xs, ys) := by
  subst h
  simp [readExact]

theorem le32dec_le32enc (n : Nat) : le32dec (le32enc n) = n % 2 ^ 32 := by
  simp only [le32enc, le32dec]
  omega

theorem streamWrite_nil_plan (s : ByteStream) (w : List Nat) (h : s.plan = []) :
    streamWrite s w = (w.length, { buf := s.buf ++ w, plan := [] }) := by
  obtain ⟨buf, plan⟩ := s
  subst h
  rfl

/-- On a fault-free stream (empty plan), `dumpPacket` appends exactly the
flat frame layout and never pads. -/
theorem dumpPacket_full (f : ByteStream) (d : Bool) (now : Int)
    (payload : List Nat) (h : f.plan = []) :
    dumpPacket f d now payload =
      { buf := f.buf ++ frameBytes d now payload, plan := [] } := by
  obtain ⟨buf, plan⟩ := f
  simp only at h
  subst h
  have hpad : ¬ payload.length < payload.length % 4294967296 := by
    have := Nat.mod_le payload.length 4294967296
    omega
  cases d <;>
    simp [dumpPacket, streamWrite, frameBytes, le32enc_mod32, hpad]

theorem readExact_all (bs : List Nat) : readExact bs.length bs = some (bs, []) := by
  have := readExact_append bs [] rfl
  simpa using this

theorem readExact_cons4 (a b c e : Nat) (t : List Nat) :
    readExact 4 (a :: b :: c :: e :: t) = some ([a, b, c, e], t) :=
  readExact_append [a, b, c, e] t rfl

theorem readExact_cons1 (a : Nat) (t : List Nat) :
    readExact 1 (a :: t) = some ([a], t) :=
  readExact_append [a] t rfl

theorem le32dec_magicA : le32dec [170, 170, 170, 170] = 0xAAAAAAAA := rfl

theorem le32dec_magicB : le32dec [187, 187, 187, 187] = 0xBBBBBBBB := rfl

/-- Reading one frame emitted by the capture encoder from the head of a byte
stream yields exactly the written direction and payload, and leaves the
remainder untouched (payloads below 2^32 bytes, format version 3). -/
theorem readPacket_frameBytes (d : Bool) (now : Int) (payload rest : List Nat)
    (h : payload.length < 4294967296) :
    readPacket 3 (frameBytes d now payload ++ rest) =
      Except.ok (some ((d, payload), rest)) := by
  have hlen : le32dec (le32enc payload.length) = payload.length := by
    rw [le32dec_le32enc]
    omega
  cases d <;>
    simp [readPacket, frameBytes, readExact_cons4, readExact_cons1,
      readExact_append, le32enc_length, le64enc_length, hlen,
      le32dec_magicA, le32dec_magicB]

theorem readExact_zero (bs : List Nat) : readExact 0 bs = some ([], bs) := by
  simp [readExact]

theorem le32dec_zero : le32dec [0, 0, 0, 0] = 0 := rfl

theorem frameBytes_length (d : Bool) (now : Int) (payload : List Nat) :
    (frameBytes d now payload).length = 21 + payload.length := by
  cases d <;> simp [frameBytes, le32enc, le64enc] <;> omega

/-- Writing frames on a fault-free stream appends the concatenation of the
individual frame layouts. -/
theorem captureAll_full (frames : List Frame) : ∀ buf : List Nat,
    captureAll ⟨buf, []⟩ frames = ⟨buf ++ encBytes frames, []⟩ := by
  induction frames with
  | nil => intro buf; simp [captureAll, encBytes]
  | cons f fs ih =>
    intro buf
    simp only [captureAll, List.foldl_cons] at *
    rw [dumpPacket_full _ _ _ _ rfl]
    rw [ih]
    simp [encBytes]

theorem encBytes_length_ge (frames : List Frame) :
    frames.length ≤ (encBytes frames).length := by
  induction frames with
  | nil => simp [encBytes]
  | cons f fs ih =>
    simp only [encBytes, List.length_append, List.length_cons,
      frameBytes_length]
    omega

theorem decodeLoop_cons (ver fuel : Nat) (bs : List Nat) (d : Bool)
    (p rest : List Nat)
    (h : readPacket ver bs = Except.ok (some ((d, p), rest))) :
    decodeLoop ver (fuel + 1) bs = (d, p) :: decodeLoop ver fuel rest := by
  rw [show decodeLoop ver (fuel + 1) bs =
      (match readPacket ver bs with
      | Except.ok (some ((d, p), rest)) => (d, p) :: decodeLoop ver fuel rest
      | _ => []) from rfl, h]

theorem decodeLoop_error (ver fuel : Nat) (bs : List Nat) (e : String)
    (h : readPacket ver bs = Except.error e) :
    decodeLoop ver (fuel + 1) bs = [] := by
  rw [show decodeLoop ver (fuel + 1) bs =
      (match readPacket ver bs with
      | Except.ok (some ((d, p), rest)) => (d, p) :: decodeLoop ver fuel rest
      | _ => []) from rfl, h]

theorem decodeLoop_encBytes (frames : List Frame) : ∀ fuel : Nat,
    frames.length ≤ fuel →
    (∀ f ∈ frames, f.payload.length < 4294967296) →
    decodeLoop 3 fuel (encBytes frames) =
      frames.map (fun f => (f.toServer, f.payload)) := by
  induction frames with
  | nil =>
    intro fuel hf hb
    cases fuel <;> simp [decodeLoop, encBytes, readPacket]
  | cons f fs ih =>
    intro fuel hf hb
    cases fuel with
    | zero => simp at hf
    | succ n =>
      simp only [encBytes]
      rw [decodeLoop_cons 3 n _ f.toServer f.payload (encBytes fs)
        (readPacket_frameBytes _ _ _ _ (hb f (by simp)))]
      rw [ih n (by simpa using hf) (fun g hg => hb g (by simp [hg]))]
      simp

/-- Round trip of the capture encoder and the replay frame reader, for
frame sequences whose payloads each fit in the `u32` length field. -/
theorem decodeFrames_captureAll (frames : List Frame)
    (hb : ∀ f ∈ frames, f.payload.length < 4294967296) :
    decodeFrames 3 (captureAll ⟨[], []⟩ frames).buf =
      frames.map (fun f => (f.toServer, f.payload)) := by
  rw [captureAll_full]
  simp only [List.nil_append, decodeFrames]
  exact decodeLoop_encBytes frames _ (encBytes_length_ge frames) hb

theorem bigPayload_length : bigPayload.length = 4294967296 :=
  List.length_replicate 4294967296 0

theorem bigPayload_split :
    bigPayload = ([0, 0, 0, 0] : List Nat) ++ bigRest := by
  show List.replicate 4294967296 (0 : Nat) = _
  rw [show (4294967296 : Nat) = 4 + 4294967292 from by norm_num,
    List.replicate_add]
  rfl

/-- Reading a frame whose length field declares 0 bytes while the payload
region holds 4 + |R| zero bytes: the reader takes an empty payload and then
misreads the payload bytes as the trailing magic, stopping with an error. -/
theorem readPacket_wrapped (R : List Nat) :
    readPacket 3 ([170, 170, 170, 170] ++ (([0, 0, 0, 0] : List Nat) ++
      ([1] ++ (le64enc 0 ++ ((0 :: 0 :: 0 :: 0 :: R) ++
        [187, 187, 187, 187]))))) = Except.error "wrong Magic2" := by
  simp [readPacket, readExact_cons4, readExact_cons1, readExact_zero,
    readExact_append, le64enc_length, le32dec_magicA, le32dec_zero]

/-- Reading the frame of the 2^32-byte payload fails: the wrapped length
field declares 0 payload bytes, so the reader then looks for the trailing
magic inside the payload bytes and stops with an error. -/
theorem readPacket_bigFrame :
    readPacket 3 (frameBytes true 0 bigPayload) = Except.error "wrong Magic2" := by
  have h1 : le32enc bigPayload.length = [0, 0, 0, 0] := by
    rw [bigPayload_length]
    norm_num [le32enc]
  have hsplit : bigPayload = 0 :: 0 :: 0 :: 0 :: bigRest := by
    rw [bigPayload_split]
    rfl
  have hstream : frameBytes true 0 bigPayload =
      [170, 170, 170, 170] ++ (([0, 0, 0, 0] : List Nat) ++
        ([1] ++ (le64enc 0 ++ ((0 :: 0 :: 0 :: 0 :: bigRest) ++
          [187, 187, 187, 187])))) := by
    rw [frameBytes.eq_def, h1, hsplit]
    simp
  rw [hstream]
  exact readPacket_wrapped bigRest

/-- Decoding the capture of the single 2^32-byte-payload frame yields no
frames at all. -/
theorem decode_bigFrame :
    decodeFrames 3 (captureAll ⟨[], []⟩ [bigFrame]).buf = [] := by
  rw [captureAll_full]
  have henc : encBytes [bigFrame] = frameBytes true 0 bigPayload := by
    simp [encBytes, bigFrame]
  simp only [List.nil_append, decodeFrames, henc]
  rw [show (frameBytes true 0 bigPayload).length = 4294967316 + 1 from by
    rw [frameBytes_length, bigPayload_length]]
  exact decodeLoop_error 3 4294967316 _ _ readPacket_bigFrame

theorem bigFrame_payload_big : ¬ bigFrame.payload.length < 4294967296 := by
  rw [show bigFrame.payload = bigPayload from rfl, bigPayload_length]
  omega

/-- Claim C1 (amended): for every ordered sequence of (direction, payload)
pairs — including zero-length payloads — in which every payload is shorter
than 2^32 bytes, writing each pair with the capture frame encoder
(`dumpPacket`) and reading the stream back with the replay frame reader
(`readPacket`, as iterated by the replay loop) reproduces exactly the same
sequence of (direction, payload) pairs, in order, with byte-identical
payloads.  The 2^32 bound is forced by the `u32` length field: see
`capture_replay_roundTrip_cex`. -/
theorem capture_replay_roundTrip (frames : List Frame)
    (hb : ∀ f ∈ frames, f.payload.length < 4294967296) :
    decodeFrames 3 (captureAll ⟨[], []⟩ frames).buf =
      frames.map (fun f => (f.toServer, f.payload)) :=
  decodeFrames_captureAll frames hb

/-- Witness for `capture_replay_roundTrip`: a concrete three-frame capture
(including an empty payload) decodes back to exactly the written pairs. -/
theorem capture_replay_roundTrip_witness :
    decodeFrames 3 (captureAll ⟨[], []⟩
      ([⟨true, 5, [104, 105]⟩, ⟨false, 6, []⟩,
        ⟨true, 7, [0, 0, 0, 0, 0]⟩] : List Frame)).buf =
      [(true, [104, 105]), (false, []), (true, [0, 0, 0, 0, 0])] :=
  capture_replay_roundTrip _ (by decide)

/-- Claim C1, as stated, is false: the sequence consisting of one frame
whose payload is 2^32 zero bytes does not survive the round trip — the
`uint32` length field wraps to 0, the reader then misparses the stream and
reports no frame at all. -/
theorem capture_replay_roundTrip_cex :
    decodeFrames 3 (captureAll ⟨[], []⟩ [bigFrame]).buf ≠
      [bigFrame].map (fun f => (f.toServer, f.payload)) := by
  rw [decode_bigFrame]
  simp

/-- Claim C7 (amended): on a stream that accepts every write in full, each
frame written by `dumpPacket` has exactly the little-endian layout
`[u32 0xAAAAAAAA][u32 payloadLength][u8 direction][i64 timestamp]
[payload][u32 0xBBBBBBBB]`, where the `u32` length field holds the
payload's byte count reduced modulo 2^32 (`le32enc` reduces modulo 2^32;
the field equals the byte count exactly when the count is below 2^32 — see
`dumpPacket_layout_cex` for the wrapping case). -/
theorem dumpPacket_layout (s : ByteStream) (d : Bool) (now : Int)
    (payload : List Nat) (h : s.plan = []) :
    (dumpPacket s d now payload).buf =
      s.buf ++ ([0xAA, 0xAA, 0xAA, 0xAA] ++ le32enc payload.length ++
        (if d then [1] else [0]) ++ le64enc now ++ payload ++
        [0xBB, 0xBB, 0xBB, 0xBB]) := by
  rw [dumpPacket_full s d now payload h]
  simp [frameBytes]

/-- Witness for `dumpPacket_layout` at a concrete frame. -/
theorem dumpPacket_layout_witness :
    (dumpPacket ⟨[], []⟩ true 1 [5, 6]).buf =
      [170, 170, 170, 170, 2, 0, 0, 0, 1, 1, 0, 0, 0, 0, 0, 0, 0, 5, 6,
        187, 187, 187, 187] := by
  rw [dumpPacket_layout ⟨[], []⟩ true 1 [5, 6] rfl]
  decide

/-- Claim C7, as stated, is false in one point: for a payload of 2^32
bytes the `u32` length field written by `dumpPacket` holds 0, not the
payload's byte count. -/
theorem dumpPacket_layout_cex :
    le32dec (((dumpPacket ⟨[], []⟩ true 0 bigPayload).buf.drop 4).take 4) ≠
      bigPayload.length := by
  have h1 : le32enc (4294967296 : Nat) = [0, 0, 0, 0] := by
    norm_num [le32enc]
  rw [dumpPacket_full ⟨[], []⟩ true 0 bigPayload rfl]
  simp [frameBytes, bigPayload_length, h1, le32dec_zero]

/-- Claim C8: if the stream accepts only `k` of the payload's bytes on the
payload `Write` (with `k` below the declared length, the payload byte count
modulo 2^32) and the remaining writes go through, `dumpPacket` pads the
payload region with zero bytes up to the declared length before the
trailing magic, so the payload region spans exactly the declared length and
the trailing magic sits immediately after it. -/
theorem dumpPacket_padding (toServer : Bool) (now : Int)
    (payload : List Nat) (k : Nat)
    (h : k < payload.length % 4294967296) :
    (dumpPacket ⟨[], [none, none, none, none, some k]⟩
        toServer now payload).buf =
      [0xAA, 0xAA, 0xAA, 0xAA] ++ le32enc payload.length ++
        (if toServer then [1] else [0]) ++ le64enc now ++
        (payload.take k ++
          List.replicate (payload.length % 4294967296 - k) 0) ++
        [0xBB, 0xBB, 0xBB, 0xBB] ∧
    (payload.take k ++
        List.replicate (payload.length % 4294967296 - k) 0).length =
      payload.length % 4294967296 := by
  have hmod : payload.length % 4294967296 ≤ payload.length :=
    Nat.mod_le payload.length 4294967296
  have hk : min k payload.length = k := by omega
  constructor
  · cases toServer <;>
      simp [dumpPacket, streamWrite, le32enc_mod32, hk, h]
  · simp only [List.length_append, List.length_take, List.length_replicate,
      hk]
    omega

/-- Witness for `dumpPacket_padding`: a 3-byte payload of which the stream
accepts only 1 byte is padded with 2 zero bytes. -/
theorem dumpPacket_padding_witness :
    (dumpPacket ⟨[], [none, none, none, none, some 1]⟩ true 0 [1, 2, 3]).buf =
      [0xAA, 0xAA, 0xAA, 0xAA] ++ le32enc ([1, 2, 3] : List Nat).length ++
        (if true then [1] else [0]) ++ le64enc 0 ++
        (([1, 2, 3] : List Nat).take 1 ++
          List.replicate (([1, 2, 3] : List Nat).length % 4294967296 - 1) 0) ++
        [0xBB, 0xBB, 0xBB, 0xBB] :=
  (dumpPacket_padding true 0 [1, 2, 3] 1 (by decide)).1

theorem handleLogin_false_inv (pk : Pk) (s s2 : LoginState)
    (h : handleLoginSequence pk s = Except.ok (s2, false)) :
    s2.spawnFired = s.spawnFired ∧ s2.fireCount = s.fireCount := by
  cases pk with
  | startGame rid =>
    simp only [handleLoginSequence, Except.ok.injEq, Prod.mk.injEq] at h
    obtain ⟨h1, -⟩ := h
    subst h1
    simp
  | setLocalPlayerAsInitialised rid =>
    by_cases hc : rid = s.entityRuntimeID <;>
      simp [handleLoginSequence, hc] at h
  | other =>
    simp only [handleLoginSequence, Except.ok.injEq, Prod.mk.injEq] at h
    obtain ⟨h1, -⟩ := h
    subst h1
    simp

theorem handleLogin_true_inv (pk : Pk) (s s2 : LoginState)
    (h : handleLoginSequence pk s = Except.ok (s2, true)) :
    pk = Pk.setLocalPlayerAsInitialised s.entityRuntimeID ∧
    s2 = { s with spawnFired := true, fireCount := s.fireCount + 1 } := by
  cases pk with
  | startGame rid => simp [handleLoginSequence] at h
  | setLocalPlayerAsInitialised rid =>
    by_cases hc : rid = s.entityRuntimeID
    · simp only [handleLoginSequence, hc, ne_eq, not_true_eq_false,
        if_false, ite_false, Except.ok.injEq, Prod.mk.injEq] at h
      refine ⟨by rw [hc], ?_⟩
      obtain ⟨h1, -⟩ := h
      exact h1.symm
    · simp [handleLoginSequence, hc] at h
  | other => simp [handleLoginSequence] at h

theorem processLogin_fireCount (pks : List Pk) : ∀ s : LoginState,
    (processLogin pks s).1.fireCount ≤ s.fireCount + 1 := by
  induction pks with
  | nil => intro s; simp [processLogin]
  | cons pk rest ih =>
    intro s
    rcases hh : handleLoginSequence pk s with e | ⟨s2, b⟩
    · simp [processLogin, hh]
    · cases b
      · have hinv := handleLogin_false_inv pk s s2 hh
        have hr := ih s2
        simp only [processLogin, hh]
        omega
      · have hinv := handleLogin_true_inv pk s s2 hh
        simp only [processLogin, hh, hinv.2]
        simp

theorem processLogin_error_no_spawn (pks : List Pk) : ∀ s : LoginState,
    s.spawnFired = false → (processLogin pks s).2.isSome = true →
    (processLogin pks s).1.spawnFired = false := by
  induction pks with
  | nil =>
    intro s h0 h1
    simp [processLogin] at h1
  | cons pk rest ih =>
    intro s h0 h1
    rcases hh : handleLoginSequence pk s with e | ⟨s2, b⟩
    · simp [processLogin, hh, h0]
    · cases b
      · have hinv := handleLogin_false_inv pk s s2 hh
        simp only [processLogin, hh] at h1 ⊢
        exact ih s2 (by rw [hinv.1, h0]) h1
      · simp [processLogin, hh] at h1

theorem processLogin_spawn_split (pks : List Pk) : ∀ s : LoginState,
    s.spawnFired = false →
    (processLogin pks s).1.spawnFired = true →
    ∃ pre post,
      pks = pre ++ Pk.setLocalPlayerAsInitialised
        (processLogin pre s).1.entityRuntimeID :: post ∧
      (processLogin pre s).2 = none ∧
      (processLogin pre s).1.spawnFired = false := by
  induction pks with
  | nil =>
    intro s h0 h1
    simp only [processLogin] at h1
    rw [h0] at h1
    exact absurd h1 (by simp)
  | cons pk rest ih =>
    intro s h0 h1
    rcases hh : handleLoginSequence pk s with e | ⟨s2, b⟩
    · simp only [processLogin, hh] at h1
      rw [h0] at h1
      exact absurd h1 (by simp)
    · cases b
      · have hinv := handleLogin_false_inv pk s s2 hh
        simp only [processLogin, hh] at h1
        obtain ⟨pre, post, hsplit, hnone, hsf⟩ :=
          ih s2 (by rw [hinv.1, h0]) h1
        have hpp : processLogin (pk :: pre) s = processLogin pre s2 := by
          simp only [processLogin, hh]
        refine ⟨pk :: pre, post, ?_, ?_, ?_⟩
        · rw [List.cons_append, hpp, ← hsplit]
        · rw [hpp]
          exact hnone
        · rw [hpp]
          exact hsf
      · obtain ⟨hpk, hs2⟩ := handleLogin_true_inv pk s s2 hh
        refine ⟨[], rest, ?_, ?_, ?_⟩
        · simp [processLogin, hpk]
        · simp [processLogin]
        · simp [processLogin, h0]

/-- Claim C2 (amended): in a replay session the one-shot spawn signal fires
at most once, and only on an initialization-confirmation message whose
entity runtime id equals the entity runtime id recorded in the game-data
snapshot at that moment — the id declared by the most recent start-of-game
message, or the zero default if none has been seen (see `replay_spawn_cex`:
the source does not require a prior start-of-game message).  If the login
phase ends in the mismatch error, the spawn signal has not fired and every
spawn-wait on the terminated session returns an error, not success. -/
theorem replay_spawn (pks : List Pk) :
    (processLogin pks initialLoginState).1.fireCount ≤ 1 ∧
    ((processLogin pks initialLoginState).2.isSome = true →
      (processLogin pks initialLoginState).1.spawnFired = false ∧
      doSpawnResult (processLogin pks initialLoginState).1.spawnFired true =
        some (Except.error "do spawn")) ∧
    ((processLogin pks initialLoginState).1.spawnFired = true →
      ∃ pre post,
        pks = pre ++ Pk.setLocalPlayerAsInitialised
          (processLogin pre initialLoginState).1.entityRuntimeID :: post ∧
        (processLogin pre initialLoginState).2 = none ∧
        (processLogin pre initialLoginState).1.spawnFired = false) := by
  refine ⟨?_, ?_, ?_⟩
  · have h := processLogin_fireCount pks initialLoginState
    simpa [initialLoginState] using h
  · intro h
    have h2 := processLogin_error_no_spawn pks initialLoginState rfl h
    refine ⟨h2, ?_⟩
    rw [h2]
    rfl
  · exact processLogin_spawn_split pks initialLoginState rfl

/-- Witness for `replay_spawn`: a start-of-game with id 7 followed by an
initialization-confirmation with id 8 — the session errors, the spawn
signal has not fired, and the spawn-wait returns the error. -/
theorem replay_spawn_witness :
    (processLogin [Pk.startGame 7, Pk.setLocalPlayerAsInitialised 8]
        initialLoginState).1.spawnFired = false ∧
    doSpawnResult (processLogin [Pk.startGame 7,
        Pk.setLocalPlayerAsInitialised 8]
        initialLoginState).1.spawnFired true =
      some (Except.error "do spawn") :=
  (replay_spawn [Pk.startGame 7, Pk.setLocalPlayerAsInitialised 8]).2.1
    (by decide)

/-- Claim C2, as stated, is false in one point: an
initialization-confirmation with entity runtime id 0 arriving with no
start-of-game before it fires the spawn signal, because it compares equal
to the zero-valued game-data id. -/
theorem replay_spawn_cex :
    (processLogin [Pk.setLocalPlayerAsInitialised 0]
        initialLoginState).1.spawnFired = true ∧
    ([Pk.setLocalPlayerAsInitialised 0].all
        (fun pk => !pk.isStartGame)) = true := by
  decide

/-- Claim C3: opening a capture container whose declared format version
differs from the version the decoder implements (3) fails at open time
with the unsupported-version error and yields no connection (the result is
an `Except.error`, so no `ReplayHandle` is produced); no forward or
backward compatibility is attempted. -/
theorem version_gate (c : Container) (vb : List Nat)
    (h1 : findEntry c "version" = some vb)
    (h2 : declaredVersion vb ≠ 3) :
    openReplay c = Except.error "wrong version" := by
  simp [openReplay, h1, h2]

/-- Witness for `version_gate`: a container declaring version 99 is
rejected. -/
theorem version_gate_witness :
    openReplay ⟨[66, 84, 67, 80],
      [("version", [99, 0, 0, 0]), ("packets.bin", [])]⟩ =
      Except.error "wrong version" :=
  version_gate _ [99, 0, 0, 0] rfl (by decide)

/-- Claim C4 (amended): the open sequence of the replay decoder performs no
header-magic verification at all — the result of opening a container is
completely independent of the file's leading magic bytes; only the archive
entries (the "version" entry's value and the presence of "packets.bin")
determine success.  Frame-level magics are checked later, by `readPacket`,
during reads. -/
theorem open_ignores_magic (m m2 : List Nat)
    (entries : List (String × List Nat)) :
    openReplay ⟨m, entries⟩ = openReplay ⟨m2, entries⟩ := rfl

/-- Claim C4, as stated, is false: a container whose four leading magic
bytes are "XXXX" (88,88,88,88) — not the writer's "BTCP" — but which holds
a valid version-3 archive opens successfully instead of being rejected as
malformed. -/
theorem open_wrong_magic_cex :
    openReplay ⟨[88, 88, 88, 88],
      [("version", [3, 0, 0, 0]), ("packets.bin", [])]⟩ =
      Except.ok ⟨3, [], []⟩ ∧
    ([88, 88, 88, 88] : List Nat) ≠ replayMagic :=
  ⟨rfl, by decide⟩

/-- Claim C5: closing a replay connection is idempotent — the first call
returns no error, and a second (or any later) call changes nothing and
also returns no error — and after close every read attempt returns the
connection-closed error instead of blocking.  The hypothesis is the state
invariant maintained by `sync.Once`: once the Once has run, both channels
are closed. -/
theorem close_idempotent (c : ConnChannels)
    (hinv : c.onceDone = true → c.closeClosed = true ∧ c.packetsClosed = true) :
    (closeConn c).2 = none ∧
    closeConn (closeConn c).1 = ((closeConn c).1, none) ∧
    readPacketOutcome (closeConn c).1 =
      some (Except.error "use of closed network connection") := by
  by_cases h : c.onceDone = true
  · obtain ⟨h1, h2⟩ := hinv h
    simp [closeConn, readPacketOutcome, h, h1, h2]
  · simp [closeConn, readPacketOutcome, h]

/-- Witness for `close_idempotent` at the state of a freshly created
replay connector. -/
theorem close_idempotent_witness :
    (closeConn newConnChannels).2 = none ∧
    closeConn (closeConn newConnChannels).1 =
      ((closeConn newConnChannels).1, none) ∧
    readPacketOutcome (closeConn newConnChannels).1 =
      some (Except.error "use of closed network connection") :=
  close_idempotent newConnChannels (by decide)

/-- Claim C6: when the stream holds fewer payload bytes than the frame's
declared payload length (end of stream mid-frame), the frame reader
returns the truncation error (`io.ReadFull`'s unexpected-EOF) and never
returns the short payload as a successfully read frame. -/
theorem truncated_frame (toServer : Bool) (now : Int)
    (declaredLen : Nat) (shortPayload : List Nat)
    (hd : declaredLen < 4294967296)
    (hs : shortPayload.length < declaredLen) :
    readPacket 3 ([0xAA, 0xAA, 0xAA, 0xAA] ++ le32enc declaredLen ++
      (if toServer then [1] else [0]) ++ le64enc now ++ shortPayload) =
      Except.error "unexpected EOF" := by
  have hlen : le32dec (le32enc declaredLen) = declaredLen := by
    rw [le32dec_le32enc]
    omega
  have hro : readExact declaredLen shortPayload = none := by
    simp only [readExact, ite_eq_right_iff]
    intro hle
    omega
  cases toServer <;>
    simp [readPacket, readExact_cons4, readExact_cons1, readExact_append,
      le32enc_length, le64enc_length, hlen, hro, le32dec_magicA]

/-- Witness for `truncated_frame`: a frame declaring 5 payload bytes of
which only 2 are present is rejected. -/
theorem truncated_frame_witness :
    readPacket 3 ([0xAA, 0xAA, 0xAA, 0xAA] ++ le32enc 5 ++
      (if true then [1] else [0]) ++ le64enc 0 ++ [1, 2]) =
      Except.error "unexpected EOF" :=
  truncated_frame true 0 5 [1, 2] (by decide) (by decide)

theorem sum_lengths_set (ps : List (List Frame)) : ∀ (i : Nat)
    (l lNew : List Frame), ps[i]? = some l →
    (((ps.set i lNew).map List.length).sum + l.length =
      (ps.map List.length).sum + lNew.length) := by
  induction ps with
  | nil => intro i l lNew h; simp at h
  | cons p ps ih =>
    intro i l lNew h
    cases i with
    | zero =>
      simp only [List.getElem?_cons_zero, Option.some.injEq] at h
      subst h
      simp [List.set]
      omega
    | succ n =>
      simp only [List.getElem?_cons_succ] at h
      have := ih n l lNew h
      simp only [List.set_cons_succ, List.map_cons, List.sum_cons]
      omega

theorem sched_length (ps : List (List Frame)) (order : List Frame)
    (h : Sched ps order) : order.length = (ps.map List.length).sum := by
  induction h with
  | nil ps hp =>
    simp only [List.length_nil]
    symm
    apply List.sum_eq_zero
    intro x hx
    simp only [List.mem_map] at hx
    obtain ⟨p, hpmem, rfl⟩ := hx
    rw [hp p hpmem]
    rfl
  | step ps i f rest order hget htail ih =>
    have hs := sum_lengths_set ps i (f :: rest) rest hget
    simp only [List.length_cons, ih, List.length_cons] at hs ⊢
    omega

theorem sum_lengths_const (ps : List (List Frame)) (M : Nat)
    (h : ∀ p ∈ ps, p.length = M) :
    (ps.map List.length).sum = ps.length * M := by
  induction ps with
  | nil => simp
  | cons p ps ih =>
    simp only [List.map_cons, List.sum_cons, List.length_cons,
      h p (by simp)]
    rw [ih (fun q hq => h q (by simp [hq]))]
    ring

/-- Claim C9 (amended): for N concurrent producers each writing M frames
(payloads below 2^32 bytes) through one capture encoder, every execution —
i.e. every interleaving `order` of the producers' sequences, since the
`dumpLock` mutex makes each `dumpPacket` call atomic, so no frame's
six-part byte sequence interleaves with another's — produces a stream that
decodes to exactly N×M well-formed frames, byte-identical to the written
ones and in an order consistent with each producer's program order (the
decoded sequence equals `order`, which interleaves the producers'
sequences order-preservingly by construction of `Sched`). -/
theorem concurrent_capture_integrity (ps : List (List Frame))
    (order : List Frame) (M : Nat) (hs : Sched ps order)
    (hM : ∀ p ∈ ps, p.length = M)
    (hb : ∀ f ∈ order, f.payload.length < 4294967296) :
    decodeFrames 3 (captureAll ⟨[], []⟩ order).buf =
      order.map (fun f => (f.toServer, f.payload)) ∧
    order.length = ps.length * M := by
  refine ⟨decodeFrames_captureAll order hb, ?_⟩
  rw [sched_length ps order hs, sum_lengths_const ps M hM]

/-- Witness for `concurrent_capture_integrity`: two producers with two
frames each, writing in the interleaved order 1,2,1,2. -/
theorem concurrent_capture_integrity_witness :
    decodeFrames 3 (captureAll ⟨[], []⟩
      ([⟨true, 0, [1]⟩, ⟨false, 0, [2]⟩, ⟨true, 0, [3]⟩,
        ⟨false, 0, [4]⟩] : List Frame)).buf =
      [(true, [1]), (false, [2]), (true, [3]), (false, [4])] ∧
    ([⟨true, 0, [1]⟩, ⟨false, 0, [2]⟩, ⟨true, 0, [3]⟩,
        ⟨false, 0, [4]⟩] : List Frame).length = 2 * 2 :=
  concurrent_capture_integrity
    [[⟨true, 0, [1]⟩, ⟨true, 0, [3]⟩], [⟨false, 0, [2]⟩, ⟨false, 0, [4]⟩]]
    [⟨true, 0, [1]⟩, ⟨false, 0, [2]⟩, ⟨true, 0, [3]⟩, ⟨false, 0, [4]⟩] 2
    (Sched.step _ 0 ⟨true, 0, [1]⟩ [⟨true, 0, [3]⟩] _ rfl
      (Sched.step _ 1 ⟨false, 0, [2]⟩ [⟨false, 0, [4]⟩] _ rfl
        (Sched.step _ 0 ⟨true, 0, [3]⟩ [] _ rfl
          (Sched.step _ 1 ⟨false, 0, [4]⟩ [] _ rfl
            (Sched.nil _ (by decide))))))
    (by decide) (by decide)

/-- Claim C9, as stated, is false without a payload bound: a single
producer (N = 1) writing a single frame (M = 1) whose payload is 2^32 zero
bytes yields a stream that decodes to 0 frames, not 1×1. -/
theorem concurrent_capture_integrity_cex :
    Sched [[bigFrame]] [bigFrame] ∧
    (decodeFrames 3 (captureAll ⟨[], []⟩ [bigFrame]).buf).length ≠ 1 * 1 := by
  constructor
  · exact Sched.step _ 0 bigFrame [] _ rfl (Sched.nil _ (by simp))
  · rw [decode_bigFrame]
    simp
